import Mathlib

/-!
# Verification of the ft_transcendence lobby / game engine core

Shallow embedding of `src/packages/backend/src/game/lobby/lobby.manager.ts`.
That file contains the `LobbyManager` class and the authoritative `Game`
class (the circle-rect-collision, speed-ramping, pause-between-points
variant, lines 748-1186 of the concatenated source), which the design notes
single out as the authoritative simulation.

Numeric game state (positions, velocities) is modelled over `ℚ`; the
TypeScript code uses IEEE doubles, but every claim under study concerns
ordering, sign flips and exact linear formulas, which coincide over `ℚ`.
Configuration constants (`gameConfig`, `MAX_PLAYERS`, countdown durations)
live in `src/config/game.config.ts` and `../constants`, which are not part
of the sources; they are kept as parameters of the embedding.
-/

namespace FtTranscendence

/-- `PaddleDirection` enum (`paddle-direction.enum.ts`): `UP`, `DOWN`, `NONE`. -/
inductive PaddleDirection where
  | UP
  | DOWN
  | NONE
deriving DecidableEq, Repr

/-- A paddle record (`game/types/paddle.ts`): position, size, vertical
velocity and current movement direction. -/
structure Paddle where
  x : ℚ
  y : ℚ
  width : ℚ
  height : ℚ
  velY : ℚ
  direction : PaddleDirection
deriving DecidableEq, Repr

/-- A 2-D velocity vector. -/
structure Vel where
  x : ℚ
  y : ℚ
deriving DecidableEq, Repr

/-- The ball record (`game/types/ball.ts`). -/
structure Ball where
  x : ℚ
  y : ℚ
  radius : ℚ
  vel : Vel
deriving DecidableEq, Repr

/-- The configuration surface (`gameConfig` plus the countdown constants).
The source keeps these in `src/config/game.config.ts`, which is not among
the provided sources; the embedding abstracts over them. -/
structure GameConfig where
  width : ℚ
  height : ℚ
  paddleWidth : ℚ
  paddleHeight : ℚ
  paddleMargin : ℚ
  paddleSpeedPerSecond : ℚ
  ballRadius : ℚ
  ballSpeedPerSecond : ℚ
  speedUp : ℚ
  timeStep : ℚ
  maxScore : Nat
deriving DecidableEq, Repr

/-- `Game.checkPaddleBounds` (authoritative variant): clamp the paddle's
vertical position into `[paddleMargin, height - paddle.height - paddleMargin]`. -/
def checkPaddleBounds (cfg : GameConfig) (paddle : Paddle) : Paddle :=
  if paddle.y < cfg.paddleMargin then
    { paddle with y := cfg.paddleMargin }
  else if paddle.y > cfg.height - paddle.height - cfg.paddleMargin then
    { paddle with y := cfg.height - paddle.height - cfg.paddleMargin }
  else
    paddle

/-- One paddle's move inside `Game.updatePaddlePosition`: shift `y` by
`paddleSpeedPerSecond * timeStep` according to `direction`, then clamp. -/
def movePaddle (cfg : GameConfig) (timeStep : ℚ) (paddle : Paddle) : Paddle :=
  let moved :=
    match paddle.direction with
    | PaddleDirection.UP => { paddle with y := paddle.y - cfg.paddleSpeedPerSecond * timeStep }
    | PaddleDirection.DOWN => { paddle with y := paddle.y + cfg.paddleSpeedPerSecond * timeStep }
    | PaddleDirection.NONE => paddle
  checkPaddleBounds cfg moved

/-- `Game.updatePaddlePosition`: move and clamp both paddles. -/
def updatePaddlePosition (cfg : GameConfig) (timeStep : ℚ)
    (paddle1 paddle2 : Paddle) : Paddle × Paddle :=
  (movePaddle cfg timeStep paddle1, movePaddle cfg timeStep paddle2)

theorem checkPaddleBounds_height (cfg : GameConfig) (p : Paddle) :
    (checkPaddleBounds cfg p).height = p.height := by
  unfold checkPaddleBounds
  split
  · rfl
  · split <;> rfl

theorem checkPaddleBounds_mem (cfg : GameConfig) (p : Paddle)
    (hfield : cfg.paddleMargin ≤ cfg.height - p.height - cfg.paddleMargin) :
    cfg.paddleMargin ≤ (checkPaddleBounds cfg p).y ∧
    (checkPaddleBounds cfg p).y ≤ cfg.height - p.height - cfg.paddleMargin := by
  unfold checkPaddleBounds
  split
  · exact ⟨le_refl _, hfield⟩
  · split
    · exact ⟨hfield, le_refl _⟩
    · constructor <;> [exact le_of_not_lt (by assumption); exact le_of_not_lt (by assumption)]

theorem movePaddle_height (cfg : GameConfig) (t : ℚ) (p : Paddle) :
    (movePaddle cfg t p).height = p.height := by
  unfold movePaddle
  cases hd : p.direction <;> simp only [hd, checkPaddleBounds_height]

theorem movePaddle_mem (cfg : GameConfig) (t : ℚ) (p : Paddle)
    (hfield : cfg.paddleMargin ≤ cfg.height - p.height - cfg.paddleMargin) :
    cfg.paddleMargin ≤ (movePaddle cfg t p).y ∧
    (movePaddle cfg t p).y ≤ cfg.height - p.height - cfg.paddleMargin := by
  unfold movePaddle
  cases hd : p.direction <;> simp only [hd] <;> exact checkPaddleBounds_mem cfg _ hfield

/-- C4: after a simulation step's paddle movement plus the bounds clamp, each
paddle's vertical position lies in `[paddleMargin, height - paddleHeight - paddleMargin]`
(provided the field is at least large enough to contain the paddle plus both
margins, which the configured constants satisfy). -/
theorem paddle_bounds_after_step (cfg : GameConfig) (t : ℚ) (p1 p2 : Paddle)
    (h1 : cfg.paddleMargin ≤ cfg.height - p1.height - cfg.paddleMargin)
    (h2 : cfg.paddleMargin ≤ cfg.height - p2.height - cfg.paddleMargin) :
    let res := updatePaddlePosition cfg t p1 p2
    (cfg.paddleMargin ≤ res.1.y ∧ res.1.y ≤ cfg.height - res.1.height - cfg.paddleMargin) ∧
    (cfg.paddleMargin ≤ res.2.y ∧ res.2.y ≤ cfg.height - res.2.height - cfg.paddleMargin) := by
  intro res
  have e1 : res.1 = movePaddle cfg t p1 := rfl
  have e2 : res.2 = movePaddle cfg t p2 := rfl
  rw [e1, e2, movePaddle_height, movePaddle_height]
  exact ⟨movePaddle_mem cfg t p1 h1, movePaddle_mem cfg t p2 h2⟩

/-- Witness for `paddle_bounds_after_step` at a concrete configuration. -/
theorem paddle_bounds_after_step_witness :
    let cfg : GameConfig :=
      { width := 800, height := 600, paddleWidth := 10, paddleHeight := 100,
        paddleMargin := 20, paddleSpeedPerSecond := 300, ballRadius := 10,
        ballSpeedPerSecond := 300, speedUp := 20, timeStep := 1/60, maxScore := 11 }
    let p : Paddle :=
      { x := 20, y := 25, width := 10, height := 100, velY := 0,
        direction := PaddleDirection.UP }
    let res := updatePaddlePosition cfg (1/60) p p
    (cfg.paddleMargin ≤ res.1.y ∧ res.1.y ≤ cfg.height - res.1.height - cfg.paddleMargin) ∧
    (cfg.paddleMargin ≤ res.2.y ∧ res.2.y ≤ cfg.height - res.2.height - cfg.paddleMargin) :=
  paddle_bounds_after_step _ _ _ _ (by norm_num) (by norm_num)

/-! ## Ball physics and collision resolution (authoritative `Game` variant) -/

/-- `Game.updateBallPosition`: advance the ball by `velocity * timeStep`. -/
def updateBallPosition (timeStep : ℚ) (ball : Ball) : Ball :=
  { ball with x := ball.x + ball.vel.x * timeStep, y := ball.y + ball.vel.y * timeStep }

/-- `Game.ballCollidesWithPaddle` (authoritative variant): circle versus
axis-aligned rectangle test via squared distances. -/
def ballCollidesWithPaddle (ball : Ball) (paddle : Paddle) : Bool :=
  let halfPaddleWidth := paddle.width / 2
  let halfPaddleHeight := paddle.height / 2
  let ballRadiusSq := ball.radius * ball.radius
  let distX := ball.x - (paddle.x + halfPaddleWidth)
  let distY := ball.y - (paddle.y + halfPaddleHeight)
  let distXSq := distX * distX
  let distYSq := distY * distY
  let distWidthRadius := halfPaddleWidth + ball.radius
  let distHeightRadius := halfPaddleHeight + ball.radius
  if distXSq > distWidthRadius * distWidthRadius ∨
      distYSq > distHeightRadius * distHeightRadius then
    false
  else if distXSq ≤ halfPaddleWidth * halfPaddleWidth ∨
      distYSq ≤ halfPaddleHeight * halfPaddleHeight then
    true
  else
    decide (distXSq + distYSq - halfPaddleWidth * halfPaddleWidth -
      halfPaddleHeight * halfPaddleHeight ≤ ballRadiusSq)

/-- `Game.handleBallPaddleCollision` (authoritative variant): reverse the
horizontal velocity; set the vertical velocity to
`(ball.y - (paddle.y + paddle.height)) / paddle.height * ballSpeedPerSecond`. -/
def handleBallPaddleCollision (ballSpeedPerSecond : ℚ) (ball : Ball) (paddle : Paddle) : Ball :=
  let normalizedIntersectionY := (ball.y - (paddle.y + paddle.height)) / paddle.height
  { ball with
    vel := { x := -ball.vel.x, y := normalizedIntersectionY * ballSpeedPerSecond } }

/-! ## Engine state and events -/

/-- Events a match dispatches to its members (`ServerGameEvents` payload kinds
relevant to the claims; the snapshot carries the two paddles and the ball as
in `Game.sendGameState`). -/
inductive Event where
  | gameStart
  | countdown (seconds : Nat)
  | state (paddle1 paddle2 : Paddle) (ball : Ball)
  | score (player1Score player2Score : Nat)
  | finish (winner : Option String) (player1Score player2Score : Nat)
  | message (text : String)
  | invite (inviterUserId lobbyId : String)
deriving DecidableEq, Repr

/-- Mutable state of the authoritative `Game` class. The score `Record`
keyed by the two seated players' user ids is represented by its two entries
`score1`, `score2` (a lobby seats exactly `player1` and `player2`);
`player1Id`/`player2Id` are the owning lobby's seated user ids and
`matchWinner` is the winner stored on the persisted match record by
`setLoser` (read back by `triggerFinish`). -/
structure GameState where
  hasStarted : Bool
  hasFinished : Bool
  stop : Bool
  gamePaused : Bool
  player1Id : String
  player2Id : String
  score1 : Nat
  score2 : Nat
  paddle1 : Paddle
  paddle2 : Paddle
  ball : Ball
  ballSpeedPerSecond : ℚ
  ballDirection : ℚ
  matchWinner : Option String
deriving DecidableEq, Repr

/-- `Game.initializeGameObjects` (authoritative variant). `Math.random`
drives the launch angle; the embedding takes the cosine and sine of the drawn
angle as oracle inputs `cosA`, `sinA`. The velocity uses the current
ball-speed scalar, then the scalar is increased by `speedUp` and the launch
direction flipped for the next reset. -/
def initializeGameObjects (cfg : GameConfig) (cosA sinA : ℚ) (st : GameState) : GameState :=
  { st with
    paddle1 :=
      { x := cfg.paddleMargin, y := cfg.height / 2 - cfg.paddleHeight / 2,
        width := cfg.paddleWidth, height := cfg.paddleHeight, velY := 0,
        direction := PaddleDirection.NONE },
    paddle2 :=
      { x := cfg.width - cfg.paddleMargin - cfg.paddleWidth,
        y := cfg.height / 2 - cfg.paddleHeight / 2,
        width := cfg.paddleWidth, height := cfg.paddleHeight, velY := 0,
        direction := PaddleDirection.NONE },
    ball :=
      { x := cfg.width / 2, y := cfg.height / 2, radius := cfg.ballRadius,
        vel := { x := cosA * st.ballSpeedPerSecond * st.ballDirection,
                 y := sinA * st.ballSpeedPerSecond } },
    ballDirection := -st.ballDirection,
    ballSpeedPerSecond := st.ballSpeedPerSecond + cfg.speedUp }

/-- `Game.checkGameFinish` (authoritative variant): when a player's score
equals `maxScore`, mark the game finished and record (via `setLoser`) the
other player as the match winner. The external match-record persistence in
`setLoser` is represented by the stored `matchWinner`. -/
def checkGameFinish (cfg : GameConfig) (st : GameState) : GameState :=
  if st.score1 = cfg.maxScore then
    { st with hasFinished := true, matchWinner := some st.player1Id }
  else if st.score2 = cfg.maxScore then
    { st with hasFinished := true, matchWinner := some st.player2Id }
  else
    st

/-- `Game.triggerFinish`: set `hasFinished` and dispatch the finish event
carrying the match winner (or `null` when no match record was made) and both
scores. -/
def triggerFinish (st : GameState) : GameState × List Event :=
  ({ st with hasFinished := true },
   [Event.finish st.matchWinner st.score1 st.score2])

/-- The score update at the top of `Game.handleScreenBoundsCollision`:
`ball.x ≤ radius` credits player 2, otherwise player 1. -/
def creditPoint (st : GameState) : GameState :=
  if st.ball.x ≤ st.ball.radius then { st with score2 := st.score2 + 1 }
  else { st with score1 := st.score1 + 1 }

/-- The tail of `Game.handleScreenBoundsCollision`: if the finish check set
`hasFinished` the function returns, otherwise it pauses the game for the
between-points countdown. -/
def pauseUnlessFinished (st : GameState) : GameState :=
  if st.hasFinished then st else { st with gamePaused := true }

/-- `Game.handleScreenBoundsCollision` (authoritative variant): credit the
point, reinitialize the objects, dispatch the score (read after the
reinitialization, which keeps scores unchanged), check for finish, and —
when not finished — pause the game for the between-points countdown. -/
def handleScreenBoundsCollision (cfg : GameConfig) (cosA sinA : ℚ)
    (st : GameState) : GameState × List Event :=
  (pauseUnlessFinished
    (checkGameFinish cfg (initializeGameObjects cfg cosA sinA (creditPoint st))),
   [Event.score (initializeGameObjects cfg cosA sinA (creditPoint st)).score1
      (initializeGameObjects cfg cosA sinA (creditPoint st)).score2])

/-- First half of `Game.handleCollisions`: the `if / else if` resolving at
most one ball-paddle collision, gated on the ball moving toward the paddle. -/
def paddleCollisionPhase (st : GameState) : GameState :=
  if st.ball.vel.x < 0 ∧ ballCollidesWithPaddle st.ball st.paddle1 then
    { st with ball := handleBallPaddleCollision st.ballSpeedPerSecond st.ball st.paddle1 }
  else if st.ball.vel.x > 0 ∧ ballCollidesWithPaddle st.ball st.paddle2 then
    { st with ball := handleBallPaddleCollision st.ballSpeedPerSecond st.ball st.paddle2 }
  else
    st

/-- Second half of `Game.handleCollisions`: top/bottom wall bounce (reverse
vertical velocity), else a goal-line crossing (scoring), else nothing. -/
def wallAndGoalPhase (cfg : GameConfig) (cosA sinA : ℚ)
    (stP : GameState) : GameState × List Event :=
  if stP.ball.y ≤ stP.ball.radius ∨ stP.ball.y ≥ cfg.height - stP.ball.radius then
    ({ stP with ball := { stP.ball with vel := { stP.ball.vel with y := -stP.ball.vel.y } } },
     [])
  else if stP.ball.x ≤ stP.ball.radius ∨ stP.ball.x ≥ cfg.width - stP.ball.radius then
    handleScreenBoundsCollision cfg cosA sinA stP
  else
    (stP, [])

/-- `Game.handleCollisions` (authoritative variant): resolve at most one
paddle collision, gated on the ball moving toward that paddle; then either a
top/bottom wall bounce (reverse vertical velocity) or, exclusively, a
left/right goal-line crossing (score handling). -/
def handleCollisions (cfg : GameConfig) (cosA sinA : ℚ)
    (st : GameState) : GameState × List Event :=
  wallAndGoalPhase cfg cosA sinA (paddleCollisionPhase st)

/-- `Game.updateGameState` (authoritative variant): paddles, then ball, then
collisions. -/
def updateGameState (cfg : GameConfig) (cosA sinA : ℚ) (timeStep : ℚ)
    (st : GameState) : GameState × List Event :=
  let st1 := { st with
    paddle1 := movePaddle cfg timeStep st.paddle1,
    paddle2 := movePaddle cfg timeStep st.paddle2 }
  let st2 := { st1 with ball := updateBallPosition timeStep st1.ball }
  handleCollisions cfg cosA sinA st2

/-- The pause handling inside the while-loop of `Game.roundManager`'s
`gameLoop`: when `gamePaused` was set by a point, the between-points
countdown plays (its time-driven countdown emissions are supplied as
`pauseCd`) and the pause flag is cleared. -/
def clearPause (pauseCd : List Event) (r : GameState × List Event) :
    GameState × List Event :=
  if r.1.gamePaused then ({ r.1 with gamePaused := false }, r.2 ++ pauseCd) else r

/-- The tail of the while-loop body in `Game.roundManager`'s `gameLoop`: a
game that finished this iteration dispatches the finish event and returns;
otherwise the state snapshot is dispatched (`sendGameState`). -/
def finishOrSnapshot (r : GameState × List Event) : GameState × List Event :=
  if r.1.hasFinished then
    ((triggerFinish r.1).1, r.2 ++ (triggerFinish r.1).2)
  else
    (r.1, r.2 ++ [Event.state r.1.paddle1 r.1.paddle2 r.1.ball])

/-- One fixed-timestep iteration of `Game.roundManager`'s `gameLoop`
(authoritative variant), including the `hasFinished || stop` guard at the
top of `gameLoop`: a finished or stopped game simulates nothing and emits
nothing further. A between-points pause plays the countdown, whose
time-driven `GameCountdown` payloads are supplied as `pauseCd`. -/
def gameLoopStep (cfg : GameConfig) (cosA sinA : ℚ) (pauseCd : List Nat)
    (st : GameState) : GameState × List Event :=
  if st.hasFinished ∨ st.stop then (st, [])
  else finishOrSnapshot
    (clearPause (pauseCd.map Event.countdown) (updateGameState cfg cosA sinA cfg.timeStep st))

/-- `n` iterations of the game loop; `oracle i` supplies the launch-angle
cosine/sine drawn at the reset of step `i` and the countdown events of a
between-points pause in step `i`. -/
def runSteps (cfg : GameConfig) (oracle : Nat → ℚ × ℚ × List Nat) :
    Nat → GameState → GameState
  | 0, st => st
  | n + 1, st =>
      (gameLoopStep cfg (oracle n).1 (oracle n).2.1 (oracle n).2.2
        (runSteps cfg oracle n st)).1

/-! ## C7: paddle reflection angle -/

/-- C7 counterexample: a ball striking the paddle's exact vertical center
does NOT leave with zero vertical velocity. With paddle `y = 250`,
`height = 100` (vertical center `300`) and ball-speed scalar `300`, a ball at
`y = 300` leaves with vertical velocity `-150`, because
`Game.handleBallPaddleCollision` measures the hit offset from
`paddle.y + paddle.height` (the paddle's bottom edge), not from its center. -/
theorem paddle_reflection_center_nonzero :
    let paddle : Paddle :=
      { x := 20, y := 250, width := 10, height := 100, velY := 0,
        direction := PaddleDirection.NONE }
    let ball : Ball := { x := 35, y := 300, radius := 10, vel := { x := -300, y := 50 } }
    ball.y = paddle.y + paddle.height / 2 ∧
    (handleBallPaddleCollision 300 ball paddle).vel.y = -150 ∧
    (-150 : ℚ) ≠ 0 := by
  refine ⟨by norm_num, ?_, by norm_num⟩
  show ((300 : ℚ) - (250 + 100)) / 100 * 300 = -150
  norm_num

/-- C7 (amended): on a resolved paddle collision the horizontal velocity is
reversed and the resulting vertical velocity equals the ball-speed scalar
times `(hit offset from the paddle's BOTTOM edge) / paddleHeight`: the factor
varies linearly with the hit position and vanishes at the bottom edge, while
a strike at the paddle's vertical center leaves with `-speed/2`. -/
theorem paddle_reflection_formula (speed : ℚ) (ball : Ball) (paddle : Paddle)
    (hh : paddle.height ≠ 0) :
    let res := handleBallPaddleCollision speed ball paddle
    let offset := ball.y - (paddle.y + paddle.height)
    res.vel.x = -ball.vel.x ∧
    res.vel.y = speed * (offset / paddle.height) ∧
    (offset = 0 → res.vel.y = 0) ∧
    (ball.y = paddle.y + paddle.height / 2 → res.vel.y = -speed / 2) := by
  intro res offset
  have hx : res.vel.x = -ball.vel.x := rfl
  have hy : res.vel.y = (ball.y - (paddle.y + paddle.height)) / paddle.height * speed := rfl
  refine ⟨hx, ?_, ?_, ?_⟩
  · rw [hy]; ring
  · intro h0
    rw [hy]
    have : ball.y - (paddle.y + paddle.height) = 0 := h0
    rw [this]
    simp
  · intro hc
    rw [hy, hc]
    field_simp
    ring

/-- Witness for `paddle_reflection_formula` on a concrete hit. -/
theorem paddle_reflection_formula_witness :
    let paddle : Paddle :=
      { x := 20, y := 250, width := 10, height := 100, velY := 0,
        direction := PaddleDirection.NONE }
    let ball : Ball := { x := 35, y := 330, radius := 10, vel := { x := -300, y := 50 } }
    (100 : ℚ) ≠ 0 ∧
    (let res := handleBallPaddleCollision 300 ball paddle
     let offset := ball.y - (paddle.y + paddle.height)
     res.vel.x = -ball.vel.x ∧
     res.vel.y = 300 * (offset / paddle.height) ∧
     (offset = 0 → res.vel.y = 0) ∧
     (ball.y = paddle.y + paddle.height / 2 → res.vel.y = -300 / 2)) :=
  ⟨by norm_num, paddle_reflection_formula 300 _ _ (by norm_num)⟩

/-! ## C6: collision sign discipline -/

/-- The sign of a resolved paddle collision's vertical out-velocity, as
produced by `handleBallPaddleCollision` against the relevant paddle; used to
phrase what a step of `handleCollisions` does to the ball's velocity. -/
def resolvedVelY (st : GameState) : ℚ :=
  if st.ball.vel.x < 0 ∧ ballCollidesWithPaddle st.ball st.paddle1 then
    (st.ball.y - (st.paddle1.y + st.paddle1.height)) / st.paddle1.height *
      st.ballSpeedPerSecond
  else if 0 < st.ball.vel.x ∧ ballCollidesWithPaddle st.ball st.paddle2 then
    (st.ball.y - (st.paddle2.y + st.paddle2.height)) / st.paddle2.height *
      st.ballSpeedPerSecond
  else
    st.ball.vel.y

/-- C6: in a simulation step that does not cross a goal line, a paddle
collision is resolved only when the ball's horizontal velocity points toward
that paddle (left paddle needs `vel.x < 0`, right paddle `vel.x > 0`);
resolving flips the sign of the horizontal velocity exactly once; and
top/bottom wall contact flips only the vertical velocity (of the post-paddle
ball), never the horizontal one. -/
theorem handleBallPaddleCollision_x (s : ℚ) (b : Ball) (p : Paddle) :
    (handleBallPaddleCollision s b p).x = b.x := rfl

theorem handleBallPaddleCollision_y (s : ℚ) (b : Ball) (p : Paddle) :
    (handleBallPaddleCollision s b p).y = b.y := rfl

theorem handleBallPaddleCollision_radius (s : ℚ) (b : Ball) (p : Paddle) :
    (handleBallPaddleCollision s b p).radius = b.radius := rfl

theorem handleBallPaddleCollision_velx (s : ℚ) (b : Ball) (p : Paddle) :
    (handleBallPaddleCollision s b p).vel.x = -b.vel.x := rfl

theorem handleBallPaddleCollision_vely (s : ℚ) (b : Ball) (p : Paddle) :
    (handleBallPaddleCollision s b p).vel.y = (b.y - (p.y + p.height)) / p.height * s := rfl

theorem paddleCollisionPhase_ball_x (st : GameState) :
    (paddleCollisionPhase st).ball.x = st.ball.x := by
  unfold paddleCollisionPhase
  split_ifs <;> rfl

theorem paddleCollisionPhase_ball_y (st : GameState) :
    (paddleCollisionPhase st).ball.y = st.ball.y := by
  unfold paddleCollisionPhase
  split_ifs <;> rfl

theorem paddleCollisionPhase_ball_radius (st : GameState) :
    (paddleCollisionPhase st).ball.radius = st.ball.radius := by
  unfold paddleCollisionPhase
  split_ifs <;> rfl

theorem paddleCollisionPhase_velx (st : GameState) :
    (paddleCollisionPhase st).ball.vel.x =
      if (st.ball.vel.x < 0 ∧ ballCollidesWithPaddle st.ball st.paddle1 = true) ∨
          (0 < st.ball.vel.x ∧ ballCollidesWithPaddle st.ball st.paddle2 = true) then
        -st.ball.vel.x
      else
        st.ball.vel.x := by
  unfold paddleCollisionPhase
  by_cases h1 : st.ball.vel.x < 0 ∧ ballCollidesWithPaddle st.ball st.paddle1 = true
  · rw [if_pos h1, if_pos (Or.inl h1)]
    rfl
  · rw [if_neg h1]
    by_cases h2 : 0 < st.ball.vel.x ∧ ballCollidesWithPaddle st.ball st.paddle2 = true
    · rw [if_pos h2, if_pos (Or.inr h2)]
      rfl
    · rw [if_neg h2, if_neg (by rintro (h | h); exact h1 h; exact h2 h)]

theorem paddleCollisionPhase_vely (st : GameState) :
    (paddleCollisionPhase st).ball.vel.y = resolvedVelY st := by
  unfold paddleCollisionPhase resolvedVelY
  split_ifs <;> rfl

theorem collisions_velocity_signs (cfg : GameConfig) (cosA sinA : ℚ) (st : GameState)
    (hnogoal : ¬ (st.ball.x ≤ st.ball.radius ∨ st.ball.x ≥ cfg.width - st.ball.radius)) :
    let res := (handleCollisions cfg cosA sinA st).1
    let hit1 := st.ball.vel.x < 0 ∧ ballCollidesWithPaddle st.ball st.paddle1 = true
    let hit2 := 0 < st.ball.vel.x ∧ ballCollidesWithPaddle st.ball st.paddle2 = true
    let wall := st.ball.y ≤ st.ball.radius ∨ st.ball.y ≥ cfg.height - st.ball.radius
    (res.ball.vel.x = if hit1 ∨ hit2 then -st.ball.vel.x else st.ball.vel.x) ∧
    (res.ball.vel.x ≠ st.ball.vel.x → hit1 ∨ hit2) ∧
    (wall → res.ball.vel.y = -resolvedVelY st) ∧
    (¬ wall → res.ball.vel.y = resolvedVelY st) := by
  intro res hit1 hit2 wall
  have hres : res = (wallAndGoalPhase cfg cosA sinA (paddleCollisionPhase st)).1 := rfl
  have hx := paddleCollisionPhase_ball_x st
  have hy := paddleCollisionPhase_ball_y st
  have hr := paddleCollisionPhase_ball_radius st
  have hvx := paddleCollisionPhase_velx st
  have hvy := paddleCollisionPhase_vely st
  by_cases hw : st.ball.y ≤ st.ball.radius ∨ st.ball.y ≥ cfg.height - st.ball.radius
  · have hres2 : res = { paddleCollisionPhase st with
        ball := { (paddleCollisionPhase st).ball with
          vel := { (paddleCollisionPhase st).ball.vel with
            y := -(paddleCollisionPhase st).ball.vel.y } } } := by
      rw [hres]
      unfold wallAndGoalPhase
      rw [if_pos (by rw [hy, hr]; exact hw)]
    refine ⟨?_, ?_, fun _ => ?_, fun hnw => absurd hw hnw⟩
    · rw [hres2]
      exact hvx
    · intro hne
      rw [hres2] at hne
      by_contra hnor
      exact hne (by rw [show ({ paddleCollisionPhase st with
        ball := { (paddleCollisionPhase st).ball with
          vel := { (paddleCollisionPhase st).ball.vel with
            y := -(paddleCollisionPhase st).ball.vel.y } } } : GameState).ball.vel.x =
              (paddleCollisionPhase st).ball.vel.x from rfl, hvx, if_neg hnor])
    · rw [hres2]
      show -(paddleCollisionPhase st).ball.vel.y = _
      rw [hvy]
  · have hres2 : res = paddleCollisionPhase st := by
      rw [hres]
      unfold wallAndGoalPhase
      rw [if_neg (by rw [hy, hr]; exact hw),
        if_neg (by rw [hx, hr]; exact hnogoal)]
    refine ⟨?_, ?_, fun hwall => absurd hwall hw, fun _ => ?_⟩
    · rw [hres2]
      exact hvx
    · intro hne
      rw [hres2] at hne
      by_contra hnor
      exact hne (by rw [hvx, if_neg hnor])
    · rw [hres2]
      exact hvy

/-- Witness for `collisions_velocity_signs`: a concrete step in which the
ball hits the left paddle moving left and also touches the top wall. -/
theorem collisions_velocity_signs_witness :
    let cfg : GameConfig :=
      { width := 800, height := 600, paddleWidth := 10, paddleHeight := 100,
        paddleMargin := 20, paddleSpeedPerSecond := 300, ballRadius := 10,
        ballSpeedPerSecond := 300, speedUp := 20, timeStep := 1/60, maxScore := 11 }
    let p1 : Paddle :=
      { x := 20, y := 250, width := 10, height := 100, velY := 0,
        direction := PaddleDirection.NONE }
    let p2 : Paddle :=
      { x := 770, y := 250, width := 10, height := 100, velY := 0,
        direction := PaddleDirection.NONE }
    let st : GameState :=
      { hasStarted := true, hasFinished := false, stop := false, gamePaused := false,
        player1Id := "p1", player2Id := "p2", score1 := 0, score2 := 0,
        paddle1 := p1, paddle2 := p2,
        ball := { x := 30, y := 300, radius := 10, vel := { x := -300, y := 50 } },
        ballSpeedPerSecond := 300, ballDirection := 1, matchWinner := none }
    (¬ (st.ball.x ≤ st.ball.radius ∨ st.ball.x ≥ cfg.width - st.ball.radius)) ∧
    (let res := (handleCollisions cfg 1 0 st).1
     let hit1 := st.ball.vel.x < 0 ∧ ballCollidesWithPaddle st.ball st.paddle1 = true
     let hit2 := 0 < st.ball.vel.x ∧ ballCollidesWithPaddle st.ball st.paddle2 = true
     let wall := st.ball.y ≤ st.ball.radius ∨ st.ball.y ≥ cfg.height - st.ball.radius
     (res.ball.vel.x = if hit1 ∨ hit2 then -st.ball.vel.x else st.ball.vel.x) ∧
     (res.ball.vel.x ≠ st.ball.vel.x → hit1 ∨ hit2) ∧
     (wall → res.ball.vel.y = -resolvedVelY st) ∧
     (¬ wall → res.ball.vel.y = resolvedVelY st)) :=
  ⟨by norm_num, collisions_velocity_signs _ 1 0 _ (by norm_num)⟩

/-! ## C1: score invariants of the engine loop -/

theorem initializeGameObjects_score1 (cfg : GameConfig) (a b : ℚ) (st : GameState) :
    (initializeGameObjects cfg a b st).score1 = st.score1 := rfl

theorem initializeGameObjects_score2 (cfg : GameConfig) (a b : ℚ) (st : GameState) :
    (initializeGameObjects cfg a b st).score2 = st.score2 := rfl

theorem initializeGameObjects_hasFinished (cfg : GameConfig) (a b : ℚ) (st : GameState) :
    (initializeGameObjects cfg a b st).hasFinished = st.hasFinished := rfl

theorem checkGameFinish_score1 (cfg : GameConfig) (st : GameState) :
    (checkGameFinish cfg st).score1 = st.score1 := by
  unfold checkGameFinish
  split_ifs <;> rfl

theorem checkGameFinish_score2 (cfg : GameConfig) (st : GameState) :
    (checkGameFinish cfg st).score2 = st.score2 := by
  unfold checkGameFinish
  split_ifs <;> rfl

theorem checkGameFinish_hasFinished (cfg : GameConfig) (st : GameState)
    (h : st.hasFinished = false) :
    (checkGameFinish cfg st).hasFinished =
      decide (st.score1 = cfg.maxScore ∨ st.score2 = cfg.maxScore) := by
  unfold checkGameFinish
  split_ifs with h1 h2
  · simp [h1]
  · simp [h2]
  · simp [h, h1, h2]

theorem pauseUnlessFinished_score1 (st : GameState) :
    (pauseUnlessFinished st).score1 = st.score1 := by
  unfold pauseUnlessFinished
  split_ifs <;> rfl

theorem pauseUnlessFinished_score2 (st : GameState) :
    (pauseUnlessFinished st).score2 = st.score2 := by
  unfold pauseUnlessFinished
  split_ifs <;> rfl

theorem pauseUnlessFinished_hasFinished (st : GameState) :
    (pauseUnlessFinished st).hasFinished = st.hasFinished := by
  unfold pauseUnlessFinished
  split_ifs <;> rfl

theorem creditPoint_cases (st : GameState) :
    ((creditPoint st).score1 = st.score1 ∧ (creditPoint st).score2 = st.score2 + 1) ∨
    ((creditPoint st).score1 = st.score1 + 1 ∧ (creditPoint st).score2 = st.score2) := by
  unfold creditPoint
  split_ifs
  · exact Or.inl ⟨rfl, rfl⟩
  · exact Or.inr ⟨rfl, rfl⟩

theorem creditPoint_hasFinished (st : GameState) :
    (creditPoint st).hasFinished = st.hasFinished := by
  unfold creditPoint
  split_ifs <;> rfl

theorem handleScreenBoundsCollision_analysis (cfg : GameConfig) (cosA sinA : ℚ)
    (s : GameState) (h : s.hasFinished = false) :
    let r := (handleScreenBoundsCollision cfg cosA sinA s).1
    (((r.score1 = s.score1 ∧ r.score2 = s.score2 + 1) ∨
      (r.score1 = s.score1 + 1 ∧ r.score2 = s.score2)) ∧
     r.hasFinished = decide (r.score1 = cfg.maxScore ∨ r.score2 = cfg.maxScore)) := by
  intro r
  have hr : r = pauseUnlessFinished
      (checkGameFinish cfg (initializeGameObjects cfg cosA sinA (creditPoint s))) := rfl
  have hs1 : r.score1 = (creditPoint s).score1 := by
    rw [hr, pauseUnlessFinished_score1, checkGameFinish_score1, initializeGameObjects_score1]
  have hs2 : r.score2 = (creditPoint s).score2 := by
    rw [hr, pauseUnlessFinished_score2, checkGameFinish_score2, initializeGameObjects_score2]
  have hcf : (initializeGameObjects cfg cosA sinA (creditPoint s)).hasFinished = false := by
    rw [initializeGameObjects_hasFinished, creditPoint_hasFinished, h]
  have hfin : r.hasFinished =
      decide (r.score1 = cfg.maxScore ∨ r.score2 = cfg.maxScore) := by
    rw [hr, pauseUnlessFinished_hasFinished, checkGameFinish_hasFinished _ _ hcf,
      pauseUnlessFinished_score1, pauseUnlessFinished_score2,
      checkGameFinish_score1, checkGameFinish_score2]
  refine ⟨?_, hfin⟩
  rw [hs1, hs2]
  exact creditPoint_cases s

theorem paddleCollisionPhase_score1 (st : GameState) :
    (paddleCollisionPhase st).score1 = st.score1 := by
  unfold paddleCollisionPhase
  split_ifs <;> rfl

theorem paddleCollisionPhase_score2 (st : GameState) :
    (paddleCollisionPhase st).score2 = st.score2 := by
  unfold paddleCollisionPhase
  split_ifs <;> rfl

theorem paddleCollisionPhase_hasFinished (st : GameState) :
    (paddleCollisionPhase st).hasFinished = st.hasFinished := by
  unfold paddleCollisionPhase
  split_ifs <;> rfl

/-- Effect of one collision resolution on the bookkeeping fields: either no
goal line was crossed and scores and the finished flag are untouched, or
exactly one player was credited one point and the finished flag now reflects
whether the new score reached `maxScore`. -/
theorem handleCollisions_analysis (cfg : GameConfig) (cosA sinA : ℚ)
    (s : GameState) (h : s.hasFinished = false) :
    let r := (handleCollisions cfg cosA sinA s).1
    (r.score1 = s.score1 ∧ r.score2 = s.score2 ∧ r.hasFinished = false) ∨
    (((r.score1 = s.score1 ∧ r.score2 = s.score2 + 1) ∨
      (r.score1 = s.score1 + 1 ∧ r.score2 = s.score2)) ∧
     r.hasFinished = decide (r.score1 = cfg.maxScore ∨ r.score2 = cfg.maxScore)) := by
  intro r
  have hp1 := paddleCollisionPhase_score1 s
  have hp2 := paddleCollisionPhase_score2 s
  have hpf := paddleCollisionPhase_hasFinished s
  have hr : r = (wallAndGoalPhase cfg cosA sinA (paddleCollisionPhase s)).1 := rfl
  rw [hr]
  unfold wallAndGoalPhase
  split_ifs with hw hgl
  · exact Or.inl ⟨hp1, hp2, by rw [show ({ paddleCollisionPhase s with
      ball := { (paddleCollisionPhase s).ball with
        vel := { (paddleCollisionPhase s).ball.vel with
          y := -(paddleCollisionPhase s).ball.vel.y } } } : GameState).hasFinished =
            (paddleCollisionPhase s).hasFinished from rfl, hpf, h]⟩
  · have hfc : (paddleCollisionPhase s).hasFinished = false := by rw [hpf, h]
    have := handleScreenBoundsCollision_analysis cfg cosA sinA (paddleCollisionPhase s) hfc
    refine Or.inr ⟨?_, this.2⟩
    rcases this.1 with ⟨a, b⟩ | ⟨a, b⟩
    · exact Or.inl ⟨by rw [a, hp1], by rw [b, hp2]⟩
    · exact Or.inr ⟨by rw [a, hp1], by rw [b, hp2]⟩
  · exact Or.inl ⟨hp1, hp2, by rw [hpf, h]⟩

theorem clearPause_fields (cd : List Event) (r : GameState × List Event) :
    (clearPause cd r).1.score1 = r.1.score1 ∧
    (clearPause cd r).1.score2 = r.1.score2 ∧
    (clearPause cd r).1.hasFinished = r.1.hasFinished := by
  unfold clearPause
  split_ifs <;> exact ⟨rfl, rfl, rfl⟩

theorem finishOrSnapshot_fields (r : GameState × List Event) :
    (finishOrSnapshot r).1.score1 = r.1.score1 ∧
    (finishOrSnapshot r).1.score2 = r.1.score2 ∧
    (finishOrSnapshot r).1.hasFinished = r.1.hasFinished := by
  unfold finishOrSnapshot
  split_ifs with hf
  · exact ⟨rfl, rfl, by
      show true = r.1.hasFinished
      rw [hf]⟩
  · exact ⟨rfl, rfl, rfl⟩

/-- The object movement of `Game.updateGameState` before collision handling
(paddles moved and clamped, ball advanced), as a named state transformer. -/
def moveObjectsPhase (cfg : GameConfig) (t : ℚ) (st : GameState) : GameState :=
  { st with paddle1 := movePaddle cfg t st.paddle1,
            paddle2 := movePaddle cfg t st.paddle2,
            ball := updateBallPosition t st.ball }

theorem updateGameState_eq (cfg : GameConfig) (cosA sinA t : ℚ) (st : GameState) :
    updateGameState cfg cosA sinA t st =
      handleCollisions cfg cosA sinA (moveObjectsPhase cfg t st) := rfl

theorem moveObjectsPhase_hasFinished (cfg : GameConfig) (t : ℚ) (st : GameState) :
    (moveObjectsPhase cfg t st).hasFinished = st.hasFinished := rfl

theorem moveObjectsPhase_score1 (cfg : GameConfig) (t : ℚ) (st : GameState) :
    (moveObjectsPhase cfg t st).score1 = st.score1 := rfl

theorem moveObjectsPhase_score2 (cfg : GameConfig) (t : ℚ) (st : GameState) :
    (moveObjectsPhase cfg t st).score2 = st.score2 := rfl

/-- Bookkeeping effect of one loop iteration: a finished or stopped game is
left untouched; otherwise either nothing was scored (scores and the finished
flag unchanged) or exactly one player gained one point and the finished flag
records whether the new score reached `maxScore`. -/
theorem gameLoopStep_analysis (cfg : GameConfig) (cosA sinA : ℚ) (cd : List Nat)
    (st : GameState) :
    let st' := (gameLoopStep cfg cosA sinA cd st).1
    (st.hasFinished = true ∨ st.stop = true → st' = st) ∧
    (st.hasFinished = false →
      (st'.score1 = st.score1 ∧ st'.score2 = st.score2 ∧ st'.hasFinished = st.hasFinished) ∨
      (((st'.score1 = st.score1 ∧ st'.score2 = st.score2 + 1) ∨
        (st'.score1 = st.score1 + 1 ∧ st'.score2 = st.score2)) ∧
       st'.hasFinished = decide (st'.score1 = cfg.maxScore ∨ st'.score2 = cfg.maxScore))) := by
  intro st'
  constructor
  · intro hstop
    show (gameLoopStep cfg cosA sinA cd st).1 = st
    unfold gameLoopStep
    rw [if_pos (by rcases hstop with h | h; exact Or.inl (by rw [h]); exact Or.inr (by rw [h]))]
  · intro hf
    by_cases hs : st.stop = true
    · left
      have : st' = st := by
        show (gameLoopStep cfg cosA sinA cd st).1 = st
        unfold gameLoopStep
        rw [if_pos (Or.inr (by rw [hs]))]
      rw [this]
      exact ⟨rfl, rfl, rfl⟩
    · have hst' : st' = (finishOrSnapshot (clearPause (cd.map Event.countdown)
          (updateGameState cfg cosA sinA cfg.timeStep st))).1 := by
        show (gameLoopStep cfg cosA sinA cd st).1 = _
        unfold gameLoopStep
        rw [if_neg (by
          rintro (h | h)
          · rw [hf] at h; exact Bool.false_ne_true h
          · exact hs h)]
      have hmid : (moveObjectsPhase cfg cfg.timeStep st).hasFinished = false := by
        rw [moveObjectsPhase_hasFinished, hf]
      have hana := handleCollisions_analysis cfg cosA sinA
        (moveObjectsPhase cfg cfg.timeStep st) hmid
      have hcp := clearPause_fields (cd.map Event.countdown)
        (updateGameState cfg cosA sinA cfg.timeStep st)
      have hfs := finishOrSnapshot_fields (clearPause (cd.map Event.countdown)
        (updateGameState cfg cosA sinA cfg.timeStep st))
      have e1 : st'.score1 = (updateGameState cfg cosA sinA cfg.timeStep st).1.score1 := by
        rw [hst', hfs.1, hcp.1]
      have e2 : st'.score2 = (updateGameState cfg cosA sinA cfg.timeStep st).1.score2 := by
        rw [hst', hfs.2.1, hcp.2.1]
      have e3 : st'.hasFinished = (updateGameState cfg cosA sinA cfg.timeStep st).1.hasFinished := by
        rw [hst', hfs.2.2, hcp.2.2]
      rw [updateGameState_eq] at e1 e2 e3
      rcases hana with ⟨a, b, c⟩ | ⟨hsc, hfin⟩
      · left
        rw [e1, e2, e3, a, b, c, moveObjectsPhase_score1, moveObjectsPhase_score2, hf]
        exact ⟨rfl, rfl, rfl⟩
      · right
        refine ⟨?_, ?_⟩
        · rcases hsc with ⟨a, b⟩ | ⟨a, b⟩
          · exact Or.inl ⟨by rw [e1, a, moveObjectsPhase_score1],
              by rw [e2, b, moveObjectsPhase_score2]⟩
          · exact Or.inr ⟨by rw [e1, a, moveObjectsPhase_score1],
              by rw [e2, b, moveObjectsPhase_score2]⟩
        · rw [e1, e2, e3, hfin]

/-- The C1 engine invariant: both scores bounded by `maxScore`, and the
finished flag holds exactly when some score reached `maxScore`. -/
def ScoreInv (cfg : GameConfig) (st : GameState) : Prop :=
  st.score1 ≤ cfg.maxScore ∧ st.score2 ≤ cfg.maxScore ∧
  (st.hasFinished = true ↔ (st.score1 = cfg.maxScore ∨ st.score2 = cfg.maxScore))

theorem gameLoopStep_preserves (cfg : GameConfig) (cosA sinA : ℚ) (cd : List Nat)
    (st : GameState) (hinv : ScoreInv cfg st) :
    ScoreInv cfg (gameLoopStep cfg cosA sinA cd st).1 ∧
    st.score1 ≤ (gameLoopStep cfg cosA sinA cd st).1.score1 ∧
    st.score2 ≤ (gameLoopStep cfg cosA sinA cd st).1.score2 := by
  obtain ⟨hb1, hb2, hiff⟩ := hinv
  have hana := gameLoopStep_analysis cfg cosA sinA cd st
  by_cases hf : st.hasFinished = true
  · rw [hana.1 (Or.inl hf)]
    exact ⟨⟨hb1, hb2, hiff⟩, le_refl _, le_refl _⟩
  · have hf' : st.hasFinished = false := by
      cases h : st.hasFinished
      · rfl
      · exact absurd h hf
    have hne1 : st.score1 ≠ cfg.maxScore := fun h => hf (hiff.mpr (Or.inl h))
    have hne2 : st.score2 ≠ cfg.maxScore := fun h => hf (hiff.mpr (Or.inr h))
    have hlt1 : st.score1 < cfg.maxScore := lt_of_le_of_ne hb1 hne1
    have hlt2 : st.score2 < cfg.maxScore := lt_of_le_of_ne hb2 hne2
    rcases hana.2 hf' with ⟨a, b, c⟩ | ⟨hsc, hfin⟩
    · refine ⟨⟨?_, ?_, ?_⟩, ?_, ?_⟩
      · rw [a]; exact hb1
      · rw [b]; exact hb2
      · rw [a, b, c, hf']
        constructor
        · intro h
          exact absurd h Bool.false_ne_true
        · rintro (h | h)
          · exact absurd h hne1
          · exact absurd h hne2
      · rw [a]
      · rw [b]
    · have hiff' : (gameLoopStep cfg cosA sinA cd st).1.hasFinished = true ↔
          ((gameLoopStep cfg cosA sinA cd st).1.score1 = cfg.maxScore ∨
           (gameLoopStep cfg cosA sinA cd st).1.score2 = cfg.maxScore) := by
        rw [hfin]
        simp
      rcases hsc with ⟨a, b⟩ | ⟨a, b⟩
      · refine ⟨⟨?_, ?_, hiff'⟩, ?_, ?_⟩
        · rw [a]; exact hb1
        · rw [b]; exact Nat.succ_le_of_lt hlt2
        · rw [a]
        · rw [b]; exact Nat.le_succ _
      · refine ⟨⟨?_, ?_, hiff'⟩, ?_, ?_⟩
        · rw [a]; exact Nat.succ_le_of_lt hlt1
        · rw [b]; exact hb2
        · rw [a]; exact Nat.le_succ _
        · rw [b]

/-- C1: along every run of the engine loop from a freshly started game
(both scores zero, not finished, positive `maxScore`), each player's score is
monotonically non-decreasing, neither score ever exceeds `maxScore`, and the
engine is marked finished exactly when some player's score equals `maxScore`. -/
theorem engine_score_invariants (cfg : GameConfig) (oracle : Nat → ℚ × ℚ × List Nat)
    (st0 : GameState) (hmax : 0 < cfg.maxScore)
    (hs1 : st0.score1 = 0) (hs2 : st0.score2 = 0) (hf0 : st0.hasFinished = false) :
    ∀ n : Nat,
      ((runSteps cfg oracle n st0).score1 ≤ (runSteps cfg oracle (n + 1) st0).score1 ∧
       (runSteps cfg oracle n st0).score2 ≤ (runSteps cfg oracle (n + 1) st0).score2) ∧
      ((runSteps cfg oracle n st0).score1 ≤ cfg.maxScore ∧
       (runSteps cfg oracle n st0).score2 ≤ cfg.maxScore) ∧
      ((runSteps cfg oracle n st0).hasFinished = true ↔
        ((runSteps cfg oracle n st0).score1 = cfg.maxScore ∨
         (runSteps cfg oracle n st0).score2 = cfg.maxScore)) := by
  have hinv0 : ScoreInv cfg st0 := by
    refine ⟨by rw [hs1]; exact Nat.zero_le _, by rw [hs2]; exact Nat.zero_le _, ?_⟩
    rw [hf0, hs1, hs2]
    constructor
    · intro h
      exact absurd h Bool.false_ne_true
    · rintro (h | h) <;> exact absurd h.symm (Nat.ne_of_gt hmax)
  have key : ∀ n : Nat, ScoreInv cfg (runSteps cfg oracle n st0) := by
    intro n
    induction n with
    | zero => exact hinv0
    | succ k ih =>
        exact (gameLoopStep_preserves cfg (oracle k).1 (oracle k).2.1 (oracle k).2.2
          (runSteps cfg oracle k st0) ih).1
  intro n
  have hmono := gameLoopStep_preserves cfg (oracle n).1 (oracle n).2.1 (oracle n).2.2
    (runSteps cfg oracle n st0) (key n)
  exact ⟨⟨hmono.2.1, hmono.2.2⟩, ⟨(key n).1, (key n).2.1⟩, (key n).2.2⟩

/-- Witness for `engine_score_invariants` on a concrete configuration and
start state, one step into the run. -/
theorem engine_score_invariants_witness :
    let cfg : GameConfig :=
      { width := 800, height := 600, paddleWidth := 10, paddleHeight := 100,
        paddleMargin := 20, paddleSpeedPerSecond := 300, ballRadius := 10,
        ballSpeedPerSecond := 300, speedUp := 20, timeStep := 1/60, maxScore := 11 }
    let p1 : Paddle :=
      { x := 20, y := 250, width := 10, height := 100, velY := 0,
        direction := PaddleDirection.NONE }
    let p2 : Paddle :=
      { x := 770, y := 250, width := 10, height := 100, velY := 0,
        direction := PaddleDirection.NONE }
    let st0 : GameState :=
      { hasStarted := true, hasFinished := false, stop := false, gamePaused := false,
        player1Id := "p1", player2Id := "p2", score1 := 0, score2 := 0,
        paddle1 := p1, paddle2 := p2,
        ball := { x := 400, y := 300, radius := 10, vel := { x := -300, y := 50 } },
        ballSpeedPerSecond := 300, ballDirection := 1, matchWinner := none }
    let oracle : Nat → ℚ × ℚ × List Nat := fun _ => (1, 0, [])
    (0 < cfg.maxScore ∧ st0.score1 = 0 ∧ st0.score2 = 0 ∧ st0.hasFinished = false) ∧
    (((runSteps cfg oracle 1 st0).score1 ≤ (runSteps cfg oracle 2 st0).score1 ∧
      (runSteps cfg oracle 1 st0).score2 ≤ (runSteps cfg oracle 2 st0).score2) ∧
     ((runSteps cfg oracle 1 st0).score1 ≤ cfg.maxScore ∧
      (runSteps cfg oracle 1 st0).score2 ≤ cfg.maxScore) ∧
     ((runSteps cfg oracle 1 st0).hasFinished = true ↔
       ((runSteps cfg oracle 1 st0).score1 = cfg.maxScore ∨
        (runSteps cfg oracle 1 st0).score2 = cfg.maxScore))) :=
  ⟨⟨by norm_num, rfl, rfl, rfl⟩,
   engine_score_invariants _ _ _ (by norm_num) rfl rfl rfl 1⟩

/-! ## C10: countdown stop behavior -/

/-- The interval ticks of `Game.countDown` (authoritative variant), as the
list of `seconds` payloads emitted to every seated player, one list entry per
`GameCountdown` emission. Tick `i` with remaining `0` emits `0` and ends;
with remaining `r > 0` and the stop flag set it clears the interval and
resolves, but still falls through to emit the current remaining `r` (the
source's stop branch has no early return) before the cleared interval stops
firing; otherwise it emits `r` and continues with `r - 1`. -/
def countDownTicks (stop : Nat → Bool) : Nat → Nat → List Nat
  | 0, _ => [0]
  | r + 1, i => if stop i then [r + 1] else (r + 1) :: countDownTicks stop r (i + 1)

/-- `Game.countDown seconds` (authoritative variant): one synchronous
emission of `seconds` before the interval starts, then the interval ticks
(numbered from 1) on `remainingSeconds = seconds - 1`; `stop i` is the value
of the game's stop flag when tick `i` fires. -/
def countDownEvents (seconds : Nat) (stop : Nat → Bool) : List Nat :=
  seconds :: countDownTicks stop (seconds - 1) 1

theorem countDownTicks_stopped (stop : Nat → Bool) :
    ∀ k r i, k + 1 ≤ r → (∀ j, j < k → stop (i + j) = false) → stop (i + k) = true →
      countDownTicks stop r i = (List.range (k + 1)).map (fun m => r - m) := by
  intro k
  induction k with
  | zero =>
      intro r i hr hbefore hstop
      match r, hr with
      | r' + 1, _ =>
          unfold countDownTicks
          rw [if_pos (by simpa using hstop)]
          simp [List.range_succ]
  | succ k ih =>
      intro r i hr hbefore hstop
      match r, hr with
      | r' + 1, hr =>
          unfold countDownTicks
          rw [if_neg (by
            have h0 := hbefore 0 (Nat.succ_pos k)
            rw [Nat.add_zero] at h0
            rw [h0]
            exact Bool.false_ne_true)]
          rw [ih r' (i + 1) (by omega)
            (fun j hj => by
              have := hbefore (j + 1) (by omega)
              rwa [show i + (j + 1) = i + 1 + j by omega] at this)
            (by rwa [show i + 1 + k = i + (k + 1) by omega])]
          symm
          rw [List.range_succ_eq_map, List.map_cons, List.map_map]
          congr 1
          apply List.map_congr_left
          intro m _
          show r' + 1 - (m + 1) = r' - m
          omega

theorem countDownTicks_nostop_length :
    ∀ r i, (countDownTicks (fun _ => false) r i).length = r + 1 := by
  intro r
  induction r with
  | zero => intro i; rfl
  | succ r ih =>
      intro i
      unfold countDownTicks
      rw [if_neg Bool.false_ne_true]
      simp [ih (i + 1)]

/-- C10: when the stop flag becomes set at interval tick `t` of a running
countdown (with remaining seconds still positive), the countdown ends at that
tick — it emits fewer events than an uninterrupted countdown — but the tick
that first observes the stop still emits one further countdown event carrying
the current remaining seconds `seconds - t`, which is the last event of the
countdown. -/
theorem countdown_stop_behavior (seconds t : Nat) (stop : Nat → Bool)
    (h1 : 1 ≤ t) (h2 : t ≤ seconds - 1)
    (hbefore : ∀ j, j < t → stop j = false) (hstop : stop t = true) :
    countDownEvents seconds stop = (List.range (t + 1)).map (fun k => seconds - k) ∧
    (countDownEvents seconds stop).getLast? = some (seconds - t) ∧
    0 < seconds - t ∧
    (countDownEvents seconds stop).length <
      (countDownEvents seconds (fun _ => false)).length := by
  have hsec : t + 1 ≤ seconds := by omega
  have ha : t - 1 + 1 ≤ seconds - 1 := by omega
  have hb : ∀ j, j < t - 1 → stop (1 + j) = false := by
    intro j hj
    exact hbefore (1 + j) (by omega)
  have hc : stop (1 + (t - 1)) = true := by
    have ht : 1 + (t - 1) = t := by omega
    rw [ht]
    exact hstop
  have hticks := countDownTicks_stopped stop (t - 1) (seconds - 1) 1 ha hb hc
  have hmain : countDownEvents seconds stop =
      (List.range (t + 1)).map (fun k => seconds - k) := by
    unfold countDownEvents
    rw [hticks]
    have ht : t - 1 + 1 = t := by omega
    rw [ht]
    symm
    rw [List.range_succ_eq_map, List.map_cons, List.map_map]
    congr 1
    apply List.map_congr_left
    intro m _
    show seconds - (m + 1) = seconds - 1 - m
    omega
  refine ⟨hmain, ?_, by omega, ?_⟩
  · rw [hmain, List.range_succ, List.map_append, List.map_singleton,
      List.getLast?_concat]
  · rw [hmain]
    unfold countDownEvents
    simp only [List.length_map, List.length_range, List.length_cons]
    rw [countDownTicks_nostop_length]
    omega

/-- Witness for `countdown_stop_behavior`: a 5-second countdown stopped at
tick 2 emits `[5, 4, 3]` and ends, versus `[5, 4, 3, 2, 1, 0]` unstopped. -/
theorem countdown_stop_behavior_witness :
    ((1 : Nat) ≤ 2 ∧ 2 ≤ 5 - 1 ∧ (∀ j, j < 2 → (fun j => decide (2 ≤ j)) j = false) ∧
      (fun j => decide (2 ≤ j)) 2 = true) ∧
    (countDownEvents 5 (fun j => decide (2 ≤ j)) =
      (List.range (2 + 1)).map (fun k => 5 - k) ∧
     (countDownEvents 5 (fun j => decide (2 ≤ j))).getLast? = some (5 - 2) ∧
     0 < 5 - 2 ∧
     (countDownEvents 5 (fun j => decide (2 ≤ j))).length <
       (countDownEvents 5 (fun _ => false)).length) :=
  ⟨⟨by decide, by decide, by decide, by decide⟩,
   countdown_stop_behavior 5 2 _ (by decide) (by decide) (by decide) (by decide)⟩

/-! ## The `LobbyManager` and `Lobby` layer -/

/-- `LobbyMode` enum (`lobby-mode.enum.ts`). -/
inductive LobbyMode where
  | Queued
  | Custom
deriving DecidableEq, Repr

/-- An `AuthenticatedSocket`: the connection id, the authenticated user's id
and username (`client.data`), and the back-reference `client.data.lobby`
(represented by the referenced lobby's id). -/
structure Client where
  id : String
  userId : String
  username : String
  lobbyId : Option String
deriving DecidableEq, Repr

/-- A user entity as far as the lobby code reads it: its id and the ids of
the users in its `blockedUsers` relation. `userIdInList` (from
`src/shared/list`, not among the sources) checks membership by user id, per
its use sites, so the relation is kept as an id list. -/
structure UserEntity where
  id : String
  blockedUsers : List String
deriving DecidableEq, Repr

/-- Modelled from the spec: a fresh `Game` instance as owned by a new
`Lobby` — flags false, zero scores, no match record; the physics objects are
left uninitialized by the source until `initializeGameObjects` and are
represented zeroed. -/
def emptyGame (p1Id p2Id : String) : GameState :=
  { hasStarted := false, hasFinished := false, stop := false, gamePaused := false,
    player1Id := p1Id, player2Id := p2Id, score1 := 0, score2 := 0,
    paddle1 := { x := 0, y := 0, width := 0, height := 0, velY := 0,
                 direction := PaddleDirection.NONE },
    paddle2 := { x := 0, y := 0, width := 0, height := 0, velY := 0,
                 direction := PaddleDirection.NONE },
    ball := { x := 0, y := 0, radius := 0, vel := { x := 0, y := 0 } },
    ballSpeedPerSecond := 0, ballDirection := 1, matchWinner := none }

/-- A `Lobby`. The class itself (`lobby/lobby.ts`) is not among the sources.
Modelled from the spec: generated id, `mode` (Queued | Custom), an ordered
map of seated players keyed by connection id (kept as an insertion-ordered
list), the invited-user-id list, and the single owned engine instance. -/
structure LobbyRec where
  id : String
  mode : LobbyMode
  players : List Client
  invitedPlayers : List String
  game : GameState
deriving DecidableEq, Repr

/-- `LobbyManager` state: the FIFO matchmaking queue `playerQueue` and the
live-lobby map `lobbies` (kept as an insertion-ordered list keyed by lobby
id). -/
structure ManagerState where
  playerQueue : List Client
  lobbies : List LobbyRec
deriving DecidableEq, Repr

/-- Modelled from the spec: the `MAX_PLAYERS` constant (`game/constants`,
not among the sources) — the maximum number of seats per session, 2. -/
def MAX_PLAYERS : Nat := 2

/-- Modelled from the spec: `Lobby.addPlayer` (in `lobby/lobby.ts`, not
among the sources) inserts the player into the seat map keyed by connection
id and stores the session back-reference on the player's connection data. -/
def lobbyAddPlayer (l : LobbyRec) (c : Client) : LobbyRec :=
  { l with players := l.players ++ [{ c with lobbyId := some l.id }] }

/-- Modelled from the spec: `Lobby.removePlayer` removes the player from the
seat map; it does not by itself stop the engine. -/
def lobbyRemovePlayer (l : LobbyRec) (c : Client) : LobbyRec :=
  { l with players := l.players.filter (fun p => p.id ≠ c.id) }

/-- The registry effect of one removal in `LobbyManager.leaveLobbyOrThrow` /
`leaveLobby`: the player is removed, the lobby's engine is finish-triggered
unconditionally (`lobby.instance.triggerFinish()`), and the lobby is deleted
from the map only when its seat map became empty; otherwise the (finished)
lobby stays registered. -/
def leaveUpdate (client : Client) (ms : ManagerState) (lobby : LobbyRec) : ManagerState :=
  if (lobbyRemovePlayer lobby client).players.length = 0 then
    { ms with lobbies := ms.lobbies.filter (fun l => l.id ≠ lobby.id) }
  else
    { ms with lobbies := ms.lobbies.map (fun l =>
        if l.id = lobby.id then
          { lobbyRemovePlayer lobby client with
            game := (triggerFinish (lobbyRemovePlayer lobby client).game).1 }
        else l) }

/-- `LobbyManager.leaveLobbyOrThrow`: strict leave. After validation it
removes the player, sends the departure message to the remaining seated
connections, calls `lobby.instance.triggerFinish()` unconditionally, and
deletes the lobby from the registry only when its seat map became empty.
The returned events are this removal's emissions in source order. -/
def leaveLobbyOrThrow (client : Client) (ms : ManagerState) :
    Except String (ManagerState × List Event) :=
  match client.lobbyId with
  | none => Except.error "You are not in a lobby"
  | some lid =>
    match ms.lobbies.find? (fun l => l.id == lid) with
    | none => Except.error "Lobby not found"
    | some lobby =>
      if lobby.players.all (fun p => p.id ≠ client.id) then
        Except.error "You are not in this lobby"
      else
        Except.ok (leaveUpdate client ms lobby,
          Event.message (client.username ++ " left the lobby") ::
            (triggerFinish (lobbyRemovePlayer lobby client).game).2)

/-! ## C2: leaving a lobby -/

/-- C2 counterexample: with two seated players, one player's leave leaves one
seat occupied, yet the engine does NOT keep running — `triggerFinish` is
called unconditionally, so the retained lobby's game is marked finished and a
finish event is emitted in addition to the departure notification. -/
theorem leave_remaining_counterexample :
    let alice : Client :=
      { id := "s1", userId := "alice", username := "alice", lobbyId := some "L" }
    let bob : Client :=
      { id := "s2", userId := "bob", username := "bob", lobbyId := some "L" }
    let lobbyL : LobbyRec :=
      { id := "L", mode := LobbyMode.Custom, players := [alice, bob],
        invitedPlayers := [], game := emptyGame "alice" "bob" }
    let ms0 : ManagerState := { playerQueue := [], lobbies := [lobbyL] }
    (leaveLobbyOrThrow alice ms0).toOption.map Prod.snd =
      some [Event.message "alice left the lobby", Event.finish none 0 0] ∧
    ((leaveLobbyOrThrow alice ms0).toOption.map (fun r =>
        r.1.lobbies.map (fun l => (l.id, l.players.length, l.game.hasFinished)))) =
      some [("L", 1, true)] := by
  exact ⟨rfl, rfl⟩

/-- C2 (amended): every validated removal finish-triggers the lobby's engine
(the retained lobby's game is marked finished even when a seat remains
occupied) and emits the departure message followed by a finish event to the
remaining members; the lobby is deregistered exactly when its seat map became
empty. -/
theorem leave_behavior (client : Client) (ms : ManagerState) (lid : String)
    (lobby : LobbyRec)
    (h1 : client.lobbyId = some lid)
    (h2 : ms.lobbies.find? (fun l => l.id == lid) = some lobby)
    (h3 : lobby.players.all (fun p => p.id ≠ client.id) = false) :
    let removed := lobbyRemovePlayer lobby client
    leaveLobbyOrThrow client ms =
      Except.ok (leaveUpdate client ms lobby,
        [Event.message (client.username ++ " left the lobby"),
         Event.finish removed.game.matchWinner removed.game.score1 removed.game.score2]) ∧
    (∀ l ∈ (leaveUpdate client ms lobby).lobbies, l.id = lobby.id →
      l.game.hasFinished = true) ∧
    (removed.players.length = 0 →
      (leaveUpdate client ms lobby).lobbies.all (fun l => l.id ≠ lobby.id) = true) ∧
    (removed.players.length ≠ 0 →
      (leaveUpdate client ms lobby).lobbies.any (fun l => l.id == lobby.id) = true) := by
  intro removed
  have hmem : lobby ∈ ms.lobbies := List.mem_of_find?_eq_some h2
  refine ⟨?_, ?_, ?_, ?_⟩
  · unfold leaveLobbyOrThrow
    rw [h1]
    simp only [h2, h3]
    rfl
  · intro l hl hid
    unfold leaveUpdate at hl
    by_cases hz : (lobbyRemovePlayer lobby client).players.length = 0
    · rw [if_pos hz] at hl
      simp only [List.mem_filter] at hl
      exact absurd hid (by simpa using hl.2)
    · rw [if_neg hz] at hl
      simp only [List.mem_map] at hl
      obtain ⟨p, hp, hpe⟩ := hl
      by_cases hpid : p.id = lobby.id
      · rw [if_pos hpid] at hpe
        rw [← hpe]
        rfl
      · rw [if_neg hpid] at hpe
        rw [← hpe] at hid
        exact absurd hid hpid
  · intro hz
    unfold leaveUpdate
    rw [if_pos hz]
    simp only [List.all_eq_true, List.mem_filter]
    intro l hl
    simpa using hl.2
  · intro hz
    unfold leaveUpdate
    rw [if_neg hz]
    simp only [List.any_eq_true, List.mem_map]
    refine ⟨{ lobbyRemovePlayer lobby client with
      game := (triggerFinish (lobbyRemovePlayer lobby client).game).1 },
      ⟨lobby, hmem, if_pos rfl⟩, ?_⟩
    show ((lobbyRemovePlayer lobby client).id == lobby.id) = true
    show (lobby.id == lobby.id) = true
    simp

/-- Witness for `leave_behavior` at the concrete two-player lobby. -/
theorem leave_behavior_witness :
    let alice : Client :=
      { id := "s1", userId := "alice", username := "alice", lobbyId := some "L" }
    let bob : Client :=
      { id := "s2", userId := "bob", username := "bob", lobbyId := some "L" }
    let lobbyL : LobbyRec :=
      { id := "L", mode := LobbyMode.Custom, players := [alice, bob],
        invitedPlayers := [], game := emptyGame "alice" "bob" }
    let ms0 : ManagerState := { playerQueue := [], lobbies := [lobbyL] }
    (alice.lobbyId = some "L" ∧
     ms0.lobbies.find? (fun l => l.id == "L") = some lobbyL ∧
     lobbyL.players.all (fun p => p.id ≠ alice.id) = false) ∧
    (let removed := lobbyRemovePlayer lobbyL alice
     leaveLobbyOrThrow alice ms0 =
       Except.ok (leaveUpdate alice ms0 lobbyL,
         [Event.message (alice.username ++ " left the lobby"),
          Event.finish removed.game.matchWinner removed.game.score1 removed.game.score2]) ∧
     (∀ l ∈ (leaveUpdate alice ms0 lobbyL).lobbies, l.id = lobbyL.id →
       l.game.hasFinished = true) ∧
     (removed.players.length = 0 →
       (leaveUpdate alice ms0 lobbyL).lobbies.all (fun l => l.id ≠ lobbyL.id) = true) ∧
     (removed.players.length ≠ 0 →
       (leaveUpdate alice ms0 lobbyL).lobbies.any (fun l => l.id == lobbyL.id) = true)) :=
  ⟨⟨rfl, rfl, rfl⟩, leave_behavior _ _ "L" _ rfl rfl rfl⟩

/-! ## C5: matchmaking queue -/

/-- `LobbyManager.tryToCreateLobby`: nothing happens below `MAX_PLAYERS`
queued entries; otherwise a new lobby is created (the `Lobby` constructor is
called without a mode argument — matchmaking-created lobbies default to
Queued mode, modelled from the spec), registered, and the first
`MAX_PLAYERS` queue entries are drained FIFO (`splice(0, MAX_PLAYERS)`) and
seated into it. The generated lobby id is taken as the parameter
`newLobbyId`. -/
def tryToCreateLobby (newLobbyId : String) (ms : ManagerState) : ManagerState :=
  if ms.playerQueue.length < MAX_PLAYERS then ms
  else
    { ms with
      lobbies := ms.lobbies ++
        [(ms.playerQueue.take MAX_PLAYERS).foldl lobbyAddPlayer
          { id := newLobbyId, mode := LobbyMode.Queued, players := [],
            invitedPlayers := [], game := emptyGame "" "" }],
      playerQueue := ms.playerQueue.drop MAX_PLAYERS }

/-- `LobbyManager.addPlayerToQueue`: reject when already in a lobby or
already queued; otherwise push onto the queue and immediately try to fill a
lobby. -/
def addPlayerToQueue (newLobbyId : String) (client : Client) (ms : ManagerState) :
    Except String ManagerState :=
  if client.lobbyId.isSome then
    Except.error "You are already in a lobby, leave it first"
  else if ms.playerQueue.any (fun p => p.id == client.id) then
    Except.error "You are already in queue"
  else
    Except.ok (tryToCreateLobby newLobbyId
      { ms with playerQueue := ms.playerQueue ++ [client] })

theorem lobbyAddPlayer_foldl (cs : List Client) :
    ∀ l0 : LobbyRec,
      ((cs.foldl lobbyAddPlayer l0).players.map (fun c => c.id) =
        l0.players.map (fun c => c.id) ++ cs.map (fun c => c.id)) ∧
      (cs.foldl lobbyAddPlayer l0).mode = l0.mode ∧
      (cs.foldl lobbyAddPlayer l0).id = l0.id := by
  induction cs with
  | nil => intro l0; simp
  | cons c cs ih =>
      intro l0
      simp only [List.foldl_cons, List.map_cons]
      refine ⟨?_, (ih _).2.1, (ih _).2.2⟩
      rw [(ih _).1]
      show (l0.players ++ [({ c with lobbyId := some l0.id } : Client)]).map
        (fun p => p.id) ++ _ = _
      simp

/-- C5: `addPlayerToQueue` rejects a player already seated in a session or
already present in the queue; and whenever the queue holds at least
`MAX_PLAYERS = 2` entries, `tryToCreateLobby` drains exactly the first 2
entries FIFO into one newly created Queued-mode lobby appended to the
registry, leaving the rest of the queue in place in its original order
(below 2 entries, nothing changes). -/
theorem enqueue_and_drain (newLobbyId : String) (client : Client) (ms : ManagerState) :
    (client.lobbyId.isSome = true →
      addPlayerToQueue newLobbyId client ms =
        Except.error "You are already in a lobby, leave it first") ∧
    (client.lobbyId = none →
      ms.playerQueue.any (fun p => p.id == client.id) = true →
      addPlayerToQueue newLobbyId client ms = Except.error "You are already in queue") ∧
    (MAX_PLAYERS ≤ ms.playerQueue.length →
      (tryToCreateLobby newLobbyId ms).playerQueue = ms.playerQueue.drop MAX_PLAYERS ∧
      (tryToCreateLobby newLobbyId ms).lobbies.dropLast = ms.lobbies ∧
      ((tryToCreateLobby newLobbyId ms).lobbies.getLast?.map (fun l =>
        (l.mode, l.players.map (fun c => c.id)))) =
        some (LobbyMode.Queued, (ms.playerQueue.take MAX_PLAYERS).map (fun c => c.id))) ∧
    (ms.playerQueue.length < MAX_PLAYERS → tryToCreateLobby newLobbyId ms = ms) := by
  refine ⟨?_, ?_, ?_, ?_⟩
  · intro h
    unfold addPlayerToQueue
    rw [if_pos h]
  · intro h hq
    unfold addPlayerToQueue
    rw [if_neg (by rw [h]; exact Bool.false_ne_true), if_pos hq]
  · intro h
    unfold tryToCreateLobby
    rw [if_neg (by omega)]
    refine ⟨rfl, ?_, ?_⟩
    · rw [List.dropLast_concat]
    · rw [List.getLast?_concat]
      have := lobbyAddPlayer_foldl (ms.playerQueue.take MAX_PLAYERS)
        { id := newLobbyId, mode := LobbyMode.Queued, players := [],
          invitedPlayers := [], game := emptyGame "" "" }
      rw [Option.map_some', this.2.1, this.1]
      rfl
  · intro h
    unfold tryToCreateLobby
    rw [if_pos h]

/-- Witness for `enqueue_and_drain`: a three-deep queue drains its first two
entries into a Queued lobby and keeps the third in place. -/
theorem enqueue_and_drain_witness :
    let carol : Client :=
      { id := "s3", userId := "carol", username := "carol", lobbyId := some "X" }
    let q : List Client :=
      [{ id := "s1", userId := "a", username := "a", lobbyId := none },
       { id := "s2", userId := "b", username := "b", lobbyId := none },
       { id := "s4", userId := "d", username := "d", lobbyId := none }]
    let ms : ManagerState := { playerQueue := q, lobbies := [] }
    (carol.lobbyId.isSome = true → addPlayerToQueue "N" carol ms =
        Except.error "You are already in a lobby, leave it first") ∧
    (carol.lobbyId = none →
      ms.playerQueue.any (fun p => p.id == carol.id) = true →
      addPlayerToQueue "N" carol ms = Except.error "You are already in queue") ∧
    (MAX_PLAYERS ≤ ms.playerQueue.length →
      (tryToCreateLobby "N" ms).playerQueue = ms.playerQueue.drop MAX_PLAYERS ∧
      (tryToCreateLobby "N" ms).lobbies.dropLast = ms.lobbies ∧
      ((tryToCreateLobby "N" ms).lobbies.getLast?.map (fun l =>
        (l.mode, l.players.map (fun c => c.id)))) =
        some (LobbyMode.Queued, (ms.playerQueue.take MAX_PLAYERS).map (fun c => c.id))) ∧
    (ms.playerQueue.length < MAX_PLAYERS → tryToCreateLobby "N" ms = ms) :=
  enqueue_and_drain "N" _ _

/-! ## C8 and C3: invitations -/

/-- `LobbyManager.inviteToLobby`, as a state transformer over the inviter's
current lobby (`client.data.lobby`, passed as `clobby`). The user lookup
`userService.findOneWithRelations(inviteDto.userId, [blockedUsers])` is an
external collaborator and its result is the `lookup` parameter. A `WsException`
aborts before any mutation, so the error outcome carries the unchanged lobby
and no emission; on success the target's id is appended to the invite list
and the out-of-band chat invite notification is emitted to the target.
Note the seat-map probe `players.has(inviteDto.userId)` compares the invite
target's USER id against seat keys, which are CONNECTION ids, exactly as in
the source. -/
def inviteToLobby (client : Client) (clobby : Option LobbyRec) (inviteeId : String)
    (lookup : Option UserEntity) : Option String × Option LobbyRec × List Event :=
  if client.userId = inviteeId then
    (some "You cannot invite yourself", clobby, [])
  else
    match clobby with
    | none => (some "You are not in a lobby", none, [])
    | some lobby =>
      if MAX_PLAYERS ≤ lobby.players.length then
        (some "Lobby already full", some lobby, [])
      else if lobby.players.any (fun p => p.id == inviteeId) then
        (some "User already in this lobby", some lobby, [])
      else if lobby.invitedPlayers.contains inviteeId then
        (some "User already invited", some lobby, [])
      else
        match lookup with
        | none => (some "User not found", some lobby, [])
        | some user =>
          if user.blockedUsers.contains client.userId then
            (some "You cannot invite this user", some lobby, [])
          else
            (none, some { lobby with invitedPlayers := lobby.invitedPlayers ++ [user.id] },
             [Event.invite client.userId lobby.id])

/-- C8: when the invite target has blocked the inviter (and the earlier
checks pass so that path is reached), `inviteToLobby` rejects with the
"You cannot invite this user" error; and on EVERY rejection path of
`inviteToLobby` the lobby — in particular its invite list — is unchanged and
no notification is emitted. -/
theorem invite_blocked_rejected (client : Client) (lobby : LobbyRec)
    (inviteeId : String) (user : UserEntity)
    (hself : client.userId ≠ inviteeId)
    (hfull : ¬ MAX_PLAYERS ≤ lobby.players.length)
    (hseated : lobby.players.any (fun p => p.id == inviteeId) = false)
    (hinvited : lobby.invitedPlayers.contains inviteeId = false)
    (hblocked : user.blockedUsers.contains client.userId = true) :
    inviteToLobby client (some lobby) inviteeId (some user) =
      (some "You cannot invite this user", some lobby, []) ∧
    (∀ (clobby : Option LobbyRec) (lookup : Option UserEntity) (e : String),
      (inviteToLobby client clobby inviteeId lookup).1 = some e →
      (inviteToLobby client clobby inviteeId lookup).2.1 = clobby ∧
      (inviteToLobby client clobby inviteeId lookup).2.2 = []) := by
  constructor
  · have hinvited2 : inviteeId ∉ lobby.invitedPlayers := by simpa using hinvited
    have hblocked2 : client.userId ∈ user.blockedUsers := by simpa using hblocked
    simp [inviteToLobby, hseated, hself, hfull, hinvited2, hblocked2]
  · intro clobby lookup e herr
    unfold inviteToLobby at herr ⊢
    by_cases h1 : client.userId = inviteeId
    · rw [if_pos h1]
      exact ⟨rfl, rfl⟩
    · rw [if_neg h1] at herr ⊢
      match clobby with
      | none => exact ⟨rfl, rfl⟩
      | some lob =>
        simp only at herr ⊢
        by_cases h2 : MAX_PLAYERS ≤ lob.players.length
        · rw [if_pos h2]
          exact ⟨rfl, rfl⟩
        · rw [if_neg h2] at herr ⊢
          by_cases h3 : lob.players.any (fun p => p.id == inviteeId) = true
          · rw [if_pos h3]
            exact ⟨rfl, rfl⟩
          · rw [if_neg h3] at herr ⊢
            by_cases h4 : lob.invitedPlayers.contains inviteeId = true
            · rw [if_pos h4]
              exact ⟨rfl, rfl⟩
            · rw [if_neg h4] at herr ⊢
              match lookup with
              | none => exact ⟨rfl, rfl⟩
              | some u =>
                simp only at herr ⊢
                by_cases h5 : u.blockedUsers.contains client.userId = true
                · rw [if_pos h5]
                  exact ⟨rfl, rfl⟩
                · rw [if_neg h5] at herr
                  exact absurd herr (by simp)

/-- Witness for `invite_blocked_rejected` at a concrete blocked invite. -/
theorem invite_blocked_rejected_witness :
    let carol : Client :=
      { id := "s1", userId := "carol", username := "carol", lobbyId := some "L" }
    let lobbyL : LobbyRec :=
      { id := "L", mode := LobbyMode.Custom, players := [carol],
        invitedPlayers := [], game := emptyGame "carol" "" }
    let dave : UserEntity := { id := "dave", blockedUsers := ["carol"] }
    (carol.userId ≠ "dave" ∧
     ¬ MAX_PLAYERS ≤ lobbyL.players.length ∧
     lobbyL.players.any (fun p => p.id == "dave") = false ∧
     lobbyL.invitedPlayers.contains "dave" = false ∧
     dave.blockedUsers.contains carol.userId = true) ∧
    (inviteToLobby carol (some lobbyL) "dave" (some dave) =
      (some "You cannot invite this user", some lobbyL, []) ∧
     (∀ (clobby : Option LobbyRec) (lookup : Option UserEntity) (e : String),
       (inviteToLobby carol clobby "dave" lookup).1 = some e →
       (inviteToLobby carol clobby "dave" lookup).2.1 = clobby ∧
       (inviteToLobby carol clobby "dave" lookup).2.2 = [])) :=
  ⟨⟨by decide, by decide, by decide, by decide, by decide⟩,
   invite_blocked_rejected _ _ _ _ (by decide) (by decide) (by decide) (by decide) (by decide)⟩

/-- `LobbyManager.inviteToLobbyThroughChat`: locate the inviter's lobby by
scanning live lobbies for a seated connection whose user id matches the
inviter, run the validation cascade, and on success push — exactly as the
source does — `user.id` (the INVITER's id) onto the invite list and return
the lobby id. The blocked-user check also tests, as in the source, whether
the inviter's own id is in the inviter's own `blockedUsers` relation (the
target's relations are never looked up; see the source's TODO comment).
Result: (error?, updated manager state, returned lobby id on success). -/
def inviteToLobbyThroughChat (user : UserEntity) (invitedUserId : String)
    (ms : ManagerState) : Option String × ManagerState × Option String :=
  if user.id = invitedUserId then
    (some "You cannot invite yourself", ms, none)
  else
    match ms.lobbies.find? (fun l => l.players.any (fun p => p.userId == user.id)) with
    | none => (some "You are not in a lobby", ms, none)
    | some lobby =>
      if MAX_PLAYERS ≤ lobby.players.length then
        (some "Lobby already full", ms, none)
      else if lobby.players.any (fun p => p.id == invitedUserId) then
        (some "User already in this lobby", ms, none)
      else if lobby.invitedPlayers.contains invitedUserId then
        (some "User already invited", ms, none)
      else if user.blockedUsers.contains user.id then
        (some "You cannot invite this user", ms, none)
      else
        (none,
         { ms with lobbies := ms.lobbies.map (fun l =>
             if l.id = lobby.id then
               { lobby with invitedPlayers := lobby.invitedPlayers ++ [user.id] }
             else l) },
         some lobby.id)

/-- C3 failing input: inviter `alice` (seated alone in lobby `L`) issues a
chat invite to `bob`, who has blocked `alice`. The call nevertheless
succeeds, and the id appended to the invite list is `"alice"` — the
inviter's own id — not `"bob"`: the target's block relation is never
consulted (the blocked check reads the inviter's own list for the inviter's
own id) and the push uses `user.id` instead of `invitedUserId`. Afterwards
`bob` is still not in the invite list, so he could not even join. -/
theorem chat_invite_appends_inviter_id :
    let alice : Client :=
      { id := "s1", userId := "alice", username := "alice", lobbyId := some "L" }
    let lobbyL : LobbyRec :=
      { id := "L", mode := LobbyMode.Custom, players := [alice],
        invitedPlayers := [], game := emptyGame "alice" "" }
    let ms0 : ManagerState := { playerQueue := [], lobbies := [lobbyL] }
    let aliceUser : UserEntity := { id := "alice", blockedUsers := [] }
    let r := inviteToLobbyThroughChat aliceUser "bob" ms0
    r.1 = none ∧
    r.2.2 = some "L" ∧
    r.2.1.lobbies.map (fun l => l.invitedPlayers) = [["alice"]] ∧
    (r.2.1.lobbies.any (fun l => l.invitedPlayers.contains "bob")) = false := by
  exact ⟨rfl, rfl, rfl, rfl⟩

/-! ## C9: finish-event ordering -/

/-- Whether an event is a `GameFinish` emission. -/
def isFinishEvent : Event → Bool
  | Event.finish _ _ _ => true
  | _ => false

/-- `finishOnlyLast evs` holds when no finish event occurs before the last
position of `evs`. -/
def finishOnlyLast (evs : List Event) : Bool :=
  evs.dropLast.all (fun e => !isFinishEvent e)

theorem handleCollisions_events_nofinish (cfg : GameConfig) (cosA sinA : ℚ)
    (st : GameState) :
    (handleCollisions cfg cosA sinA st).2.all (fun e => !isFinishEvent e) = true := by
  unfold handleCollisions wallAndGoalPhase
  split_ifs <;> rfl

theorem clearPause_events_nofinish (cdn : List Nat) (r : GameState × List Event)
    (h : r.2.all (fun e => !isFinishEvent e) = true) :
    (clearPause (cdn.map Event.countdown) r).2.all (fun e => !isFinishEvent e) = true := by
  unfold clearPause
  split_ifs
  · show (r.2 ++ cdn.map Event.countdown).all (fun e => !isFinishEvent e) = true
    rw [List.all_append, h, Bool.true_and]
    induction cdn with
    | nil => rfl
    | cons a t _ => simp [isFinishEvent]
  · exact h

/-- C9 (amended): within the engine's own loop the finish event is last — a
finished or stopped engine simulates and emits nothing, the iteration that
finishes the match ends its emissions with the single finish event (all its
earlier emissions are non-finish events), and an iteration that does not
finish emits no finish event at all. (Member departure and expiry, by
contrast, emit further events afterwards; see the counterexample.) -/
theorem engine_finish_event_last (cfg : GameConfig) (cosA sinA : ℚ) (cd : List Nat)
    (st : GameState) :
    let r := gameLoopStep cfg cosA sinA cd st
    (st.hasFinished = true ∨ st.stop = true → r.2 = [] ∧ r.1 = st) ∧
    (st.hasFinished = false → st.stop = false →
      (r.1.hasFinished = true →
        r.2.getLast? = some (Event.finish r.1.matchWinner r.1.score1 r.1.score2) ∧
        finishOnlyLast r.2 = true) ∧
      (r.1.hasFinished = false → r.2.all (fun e => !isFinishEvent e) = true)) := by
  intro r
  constructor
  · intro hstop
    have : r = (st, []) := by
      show gameLoopStep cfg cosA sinA cd st = (st, [])
      unfold gameLoopStep
      rw [if_pos (by
        rcases hstop with h | h
        · exact Or.inl (by rw [h])
        · exact Or.inr (by rw [h]))]
    rw [this]
    exact ⟨rfl, rfl⟩
  · intro hf hs
    have hr : r = finishOrSnapshot (clearPause (cd.map Event.countdown)
        (updateGameState cfg cosA sinA cfg.timeStep st)) := by
      show gameLoopStep cfg cosA sinA cd st = _
      unfold gameLoopStep
      rw [if_neg (by
        rintro (h | h)
        · rw [hf] at h; exact Bool.false_ne_true h
        · rw [hs] at h; exact Bool.false_ne_true h)]
    have hu : (updateGameState cfg cosA sinA cfg.timeStep st).2.all
        (fun e => !isFinishEvent e) = true := by
      rw [updateGameState_eq]
      exact handleCollisions_events_nofinish cfg cosA sinA _
    have hc := clearPause_events_nofinish cd
      (updateGameState cfg cosA sinA cfg.timeStep st) hu
    set c := clearPause (cd.map Event.countdown)
      (updateGameState cfg cosA sinA cfg.timeStep st) with hcdef
    by_cases hcf : c.1.hasFinished = true
    · have hrr : r = ((triggerFinish c.1).1,
          c.2 ++ [Event.finish c.1.matchWinner c.1.score1 c.1.score2]) := by
        rw [hr]
        unfold finishOrSnapshot
        rw [if_pos hcf]
        rfl
      constructor
      · intro _
        rw [hrr]
        refine ⟨?_, ?_⟩
        · rw [List.getLast?_concat]
          rfl
        · show ((c.2 ++ [Event.finish c.1.matchWinner c.1.score1 c.1.score2]).dropLast.all
            (fun e => !isFinishEvent e)) = true
          rw [List.dropLast_concat]
          exact hc
      · intro hfalse
        rw [hrr] at hfalse
        have : (triggerFinish c.1).1.hasFinished = true := rfl
        rw [hfalse] at this
        exact absurd this Bool.false_ne_true
    · have hrr : r = (c.1, c.2 ++ [Event.state c.1.paddle1 c.1.paddle2 c.1.ball]) := by
        rw [hr]
        unfold finishOrSnapshot
        rw [if_neg hcf]
      constructor
      · intro htrue
        rw [hrr] at htrue
        exact absurd htrue hcf
      · intro _
        rw [hrr]
        show (c.2 ++ [Event.state c.1.paddle1 c.1.paddle2 c.1.ball]).all
          (fun e => !isFinishEvent e) = true
        rw [List.all_append, hc, Bool.true_and]
        rfl

/-- Witness for `engine_finish_event_last` at a concrete state (a running,
unfinished game, in which the step emits only non-finish events). -/
theorem engine_finish_event_last_witness :
    let cfg : GameConfig :=
      { width := 800, height := 600, paddleWidth := 10, paddleHeight := 100,
        paddleMargin := 20, paddleSpeedPerSecond := 300, ballRadius := 10,
        ballSpeedPerSecond := 300, speedUp := 20, timeStep := 1/60, maxScore := 11 }
    let p1 : Paddle :=
      { x := 20, y := 250, width := 10, height := 100, velY := 0,
        direction := PaddleDirection.NONE }
    let st : GameState :=
      { hasStarted := true, hasFinished := false, stop := false, gamePaused := false,
        player1Id := "p1", player2Id := "p2", score1 := 0, score2 := 0,
        paddle1 := p1, paddle2 := { p1 with x := 770 },
        ball := { x := 400, y := 300, radius := 10, vel := { x := -300, y := 50 } },
        ballSpeedPerSecond := 300, ballDirection := 1, matchWinner := none }
    (st.hasFinished = false ∧ st.stop = false) ∧
    (let r := gameLoopStep cfg 1 0 [] st
     (st.hasFinished = true ∨ st.stop = true → r.2 = [] ∧ r.1 = st) ∧
     (st.hasFinished = false → st.stop = false →
       (r.1.hasFinished = true →
         r.2.getLast? = some (Event.finish r.1.matchWinner r.1.score1 r.1.score2) ∧
         finishOnlyLast r.2 = true) ∧
       (r.1.hasFinished = false → r.2.all (fun e => !isFinishEvent e) = true))) :=
  ⟨⟨rfl, rfl⟩, engine_finish_event_last _ 1 0 [] _⟩

/-- C9 counterexample: a finish event is NOT always the last event a match
emits. With both players seated, the first player's departure emits a finish
event (the second event of the match's stream), after which the second
player's departure emits a further message event and a second finish event
for the same match. -/
theorem finish_event_not_last_counterexample :
    let alice : Client :=
      { id := "s1", userId := "alice", username := "alice", lobbyId := some "L" }
    let bob : Client :=
      { id := "s2", userId := "bob", username := "bob", lobbyId := some "L" }
    let lobbyL : LobbyRec :=
      { id := "L", mode := LobbyMode.Custom, players := [alice, bob],
        invitedPlayers := [], game := emptyGame "alice" "bob" }
    let ms0 : ManagerState := { playerQueue := [], lobbies := [lobbyL] }
    let r1 := leaveLobbyOrThrow alice ms0
    let ms1 := (r1.toOption.map Prod.fst).getD ms0
    let evs1 := (r1.toOption.map Prod.snd).getD []
    let evs2 := ((leaveLobbyOrThrow bob ms1).toOption.map Prod.snd).getD []
    evs1 ++ evs2 =
      [Event.message "alice left the lobby", Event.finish none 0 0,
       Event.message "bob left the lobby", Event.finish none 0 0] ∧
    finishOnlyLast (evs1 ++ evs2) = false := by
  exact ⟨rfl, rfl⟩

end FtTranscendence
